import Mathlib

/-!
Verification of the TeamPulse meeting-analytics engine.

The definitions below are a shallow embedding of the Python sources under
`meetings/` (analyzers.py, trend_analyzer.py, risk_detector.py, parsers.py).
Floating-point numbers are modelled as rationals; Python `round(x, d)`
(round-half-to-even) is modelled exactly by `roundTo`; Django querysets are
modelled as lists.
-/

namespace TeamPulse

/-- Python `round` to an integer: round-half-to-even (banker's rounding). -/
def roundHalfEven (x : ℚ) : ℤ :=
  if x - ⌊x⌋ < 1/2 then ⌊x⌋
  else if 1/2 < x - ⌊x⌋ then ⌊x⌋ + 1
  else if ⌊x⌋ % 2 = 0 then ⌊x⌋ else ⌊x⌋ + 1

/-- Python `round(x, d)`: round to `d` decimal digits, ties to even. -/
def roundTo (d : ℕ) (x : ℚ) : ℚ := (roundHalfEven (x * 10 ^ d) : ℚ) / 10 ^ d

/-- Python `statistics.mean` (callers below never pass an empty list). -/
def listMean (l : List ℚ) : ℚ := l.sum / l.length

/-- A meeting as seen by `TrendAnalyzer`: the stored aggregate fields of the
`Meeting` model (`avg_sentiment` and `participation_balance` are nullable)
together with the `engagement_score` column of its `MeetingMetrics` rows.
The list of meetings handed to the analyzer is taken in date order. -/
structure MeetingRec where
  date : String
  avgSentiment : Option ℚ
  participationBalance : Option ℚ
  totalMessages : ℕ
  engagementScores : List ℚ
deriving DecidableEq

/-- Result dictionary of the trend-analysis methods. -/
structure TrendResult where
  trend : String
  changePercentage : ℚ
  currentAvg : ℚ
  previousAvg : ℚ
  dataPoints : List (String × ℚ)
deriving DecidableEq

/-- The Python expression `m.avg_sentiment or 0.0` (None becomes 0.0;
a stored 0.0 also yields 0.0, so `Option.getD` is an exact model). -/
def sentVals (ms : List MeetingRec) : List ℚ :=
  ms.map fun m => m.avgSentiment.getD 0

/-- The Python expression `m.participation_balance or 0.0`. -/
def balVals (ms : List MeetingRec) : List ℚ :=
  ms.map fun m => m.participationBalance.getD 0

/-- `mid_point = len(self.meetings) // 2`. -/
def midPoint (ms : List MeetingRec) : ℕ := ms.length / 2

/-- `statistics.mean([m.avg_sentiment or 0.0 for m in earlier_meetings])`. -/
def sentEarlierAvg (ms : List MeetingRec) : ℚ :=
  listMean (sentVals (ms.take (midPoint ms)))

/-- `statistics.mean([m.avg_sentiment or 0.0 for m in recent_meetings])`. -/
def sentRecentAvg (ms : List MeetingRec) : ℚ :=
  listMean (sentVals (ms.drop (midPoint ms)))

/-- `((recent_avg - earlier_avg) / abs(earlier_avg + 0.001)) * 100` from
`analyze_sentiment_trend` (the `abs` is applied to the sum). -/
def sentChangePct (ms : List MeetingRec) : ℚ :=
  ((sentRecentAvg ms - sentEarlierAvg ms) / |sentEarlierAvg ms + 1/1000|) * 100

/-- `TrendAnalyzer.analyze_sentiment_trend`. -/
def analyzeSentimentTrend (ms : List MeetingRec) : TrendResult :=
  if ms.length < 2 then ⟨"insufficient_data", 0, 0, 0, []⟩
  else
    { trend := if sentChangePct ms > 10 then "improving"
               else if sentChangePct ms < -10 then "declining"
               else "stable"
      changePercentage := roundTo 2 (sentChangePct ms)
      currentAvg := roundTo 4 (sentRecentAvg ms)
      previousAvg := roundTo 4 (sentEarlierAvg ms)
      dataPoints := ms.map fun m => (m.date, m.avgSentiment.getD 0) }

/-- Mean of `[m.participation_balance or 0.0 ...]` over the earlier half. -/
def balEarlierAvg (ms : List MeetingRec) : ℚ :=
  listMean (balVals (ms.take (midPoint ms)))

/-- Mean of `[m.participation_balance or 0.0 ...]` over the recent half. -/
def balRecentAvg (ms : List MeetingRec) : ℚ :=
  listMean (balVals (ms.drop (midPoint ms)))

/-- `((recent_balance - earlier_balance) / (earlier_balance + 0.001)) * 100`
from `analyze_participation_trend` (no absolute value). -/
def balChangePct (ms : List MeetingRec) : ℚ :=
  ((balRecentAvg ms - balEarlierAvg ms) / (balEarlierAvg ms + 1/1000)) * 100

/-- `TrendAnalyzer.analyze_participation_trend`. -/
def analyzeParticipationTrend (ms : List MeetingRec) : TrendResult :=
  if ms.length < 2 then ⟨"insufficient_data", 0, 0, 0, []⟩
  else
    { trend := if balChangePct ms > 5 then "improving"
               else if balChangePct ms < -5 then "declining"
               else "stable"
      changePercentage := roundTo 2 (balChangePct ms)
      currentAvg := roundTo 4 (balRecentAvg ms)
      previousAvg := roundTo 4 (balEarlierAvg ms)
      dataPoints := ms.map fun m => (m.date, m.participationBalance.getD 0) }

/-- Per-meeting engagement data point:
`round(meeting.metrics.aggregate(Avg(engagement_score)) or 0.0, 2)`
(the aggregate is `None`, hence 0.0, when the meeting has no metric rows). -/
def engVal (m : MeetingRec) : ℚ :=
  roundTo 2 (if m.engagementScores.isEmpty then 0 else listMean m.engagementScores)

/-- Mean of the (rounded) engagement data points over the earlier half. -/
def engEarlierAvg (ms : List MeetingRec) : ℚ :=
  listMean ((ms.take (midPoint ms)).map engVal)

/-- Mean of the (rounded) engagement data points over the recent half. -/
def engRecentAvg (ms : List MeetingRec) : ℚ :=
  listMean ((ms.drop (midPoint ms)).map engVal)

/-- `((recent_avg - earlier_avg) / (earlier_avg + 0.001)) * 100` from
`analyze_engagement_trend` (no absolute value). -/
def engChangePct (ms : List MeetingRec) : ℚ :=
  ((engRecentAvg ms - engEarlierAvg ms) / (engEarlierAvg ms + 1/1000)) * 100

/-- `TrendAnalyzer.analyze_engagement_trend`. -/
def analyzeEngagementTrend (ms : List MeetingRec) : TrendResult :=
  if ms.length < 2 then ⟨"insufficient_data", 0, 0, 0, []⟩
  else
    { trend := if engChangePct ms > 10 then "improving"
               else if engChangePct ms < -10 then "declining"
               else "stable"
      changePercentage := roundTo 2 (engChangePct ms)
      currentAvg := roundTo 2 (engRecentAvg ms)
      previousAvg := roundTo 2 (engEarlierAvg ms)
      dataPoints := ms.map fun m => (m.date, engVal m) }

/-- `meeting.total_messages` as a rational, one per meeting. -/
def volVals (ms : List MeetingRec) : List ℚ :=
  ms.map fun m => (m.totalMessages : ℚ)

/-- Mean message volume over the earlier half. -/
def volEarlierAvg (ms : List MeetingRec) : ℚ :=
  listMean (volVals (ms.take (midPoint ms)))

/-- Mean message volume over the recent half. -/
def volRecentAvg (ms : List MeetingRec) : ℚ :=
  listMean (volVals (ms.drop (midPoint ms)))

/-- `((recent_avg - earlier_avg) / (earlier_avg + 0.001)) * 100` from
`analyze_message_volume_trend` (no absolute value). -/
def volChangePct (ms : List MeetingRec) : ℚ :=
  ((volRecentAvg ms - volEarlierAvg ms) / (volEarlierAvg ms + 1/1000)) * 100

/-- `TrendAnalyzer.analyze_message_volume_trend`. -/
def analyzeMessageVolumeTrend (ms : List MeetingRec) : TrendResult :=
  if ms.length < 2 then ⟨"insufficient_data", 0, 0, 0, []⟩
  else
    { trend := if volChangePct ms > 15 then "increasing"
               else if volChangePct ms < -15 then "decreasing"
               else "stable"
      changePercentage := roundTo 2 (volChangePct ms)
      currentAvg := roundTo 1 (volRecentAvg ms)
      previousAvg := roundTo 1 (volEarlierAvg ms)
      dataPoints := ms.map fun m => (m.date, (m.totalMessages : ℚ)) }

/-- Modelled from the spec's words for claim C2: change percentage with
denominator `|earlier_avg| + 0.001` (absolute value of the mean alone). -/
def specChangePct (recentAvg earlierAvg : ℚ) : ℚ :=
  ((recentAvg - earlierAvg) / (|earlierAvg| + 1/1000)) * 100

/-- The loop `for i, p in enumerate(participations): cumsum += (n - i) * p`
of `_calculate_participation_balance`, with explicit start index `i`. -/
def giniCumsumAux (n : ℕ) : ℕ → List ℚ → ℚ
  | _, [] => 0
  | i, p :: rest => ((n : ℚ) - (i : ℚ)) * p + giniCumsumAux n (i + 1) rest

/-- `MeetingAnalyzer._calculate_participation_balance`: for at most one metric
row the balance is 1.0; otherwise sort the participation percentages
ascending (`insertionSort` agrees with Python's stable ascending sort),
compute `gini = 2*cumsum/(n*sum) - (n+1)/n` and clamp `1 - gini` to [0, 1]. -/
def participationBalance (metrics : List ℚ) : ℚ :=
  if metrics.length ≤ 1 then 1
  else
    max 0 (min 1 (1 -
      (2 * giniCumsumAux (metrics.insertionSort (· ≤ ·)).length 0
          (metrics.insertionSort (· ≤ ·)) /
          (((metrics.insertionSort (· ≤ ·)).length : ℚ) *
            (metrics.insertionSort (· ≤ ·)).sum)
        - (((metrics.insertionSort (· ≤ ·)).length : ℚ) + 1) /
          ((metrics.insertionSort (· ≤ ·)).length : ℚ))))

/-- Modelled from the claim's words for C1: `cumsum` as the sum over 0-indexed
`i` of `(n - i) * p_i`. -/
def giniSpecCumsum (ps : List ℚ) : ℚ :=
  ∑ i ∈ Finset.range ps.length, ((ps.length : ℚ) - (i : ℚ)) * ps.getD i 0

/-- `MeetingAnalyzer._calculate_engagement_score`: weighted sum of a word
score (20 avg words saturate it), a question ratio score (0 when the speaker
has no messages) and the participation percentage capped at 100, rounded to
two decimals. -/
def engagementScore (avg_words questions messages participation : ℚ) : ℚ :=
  roundTo 2 (min (avg_words / 20 * 100) 100 * 0.4
    + (if 0 < messages then min (questions / messages * 100) 100 else 0) * 0.3
    + min participation 100 * 0.3)

/-- A meeting's per-message speaker list (one entry per stored message, the
already-cleaned speaker name). -/
def storedTotalMessages (msgs : List String) : ℕ := msgs.length

/-- The distinct speakers of a meeting
(`Speaker.objects.filter(messages__meeting=...).distinct()`). -/
def meetingSpeakers (msgs : List String) : List String := msgs.dedup

/-- `speaker_messages.count()` for one speaker. -/
def speakerMessageCount (msgs : List String) (s : String) : ℕ := msgs.count s

/-- `(speaker_message_count / total_messages * 100) if total_messages > 0
else 0` from `_calculate_speaker_metrics`. -/
def participationPct (msgs : List String) (s : String) : ℚ :=
  if 0 < msgs.length then (msgs.count s : ℚ) / (msgs.length : ℚ) * 100 else 0

/-- Interrogative/auxiliary sentence starters checked by
`MessageAnalyzer.analyze_message`. -/
def questionWords : List String :=
  ["who", "what", "where", "when", "why", "how", "is", "are", "can",
   "could", "would", "should", "do", "does", "did"]

/-- Question detection from `MessageAnalyzer.analyze_message`:
`'?' in content or any(content.lower().strip().startswith(q) for q in ...)`. -/
def isQuestion (content : String) : Bool :=
  content.contains '?'
    || questionWords.any (fun q => ((content.toLower).trim).startsWith q)

/-- Result of a risk detection (`risk_level` and `risk_score`). -/
structure RiskResult where
  riskLevel : String
  riskScore : ℕ
deriving DecidableEq

/-- The four additive contributions of `RiskDetector.detect_conflict_risk`:
+30 when the sentiment trend is declining with (rounded) change percentage
below the −15 threshold, +25 when the recent sentiment average is below
−0.3, +20 when the recent participation balance is below 0.5, +15 when the
participation trend is declining. -/
def conflictRiskScore (ms : List MeetingRec) : ℕ :=
  (if (analyzeSentimentTrend ms).trend = "declining" ∧
      (analyzeSentimentTrend ms).changePercentage < -15 then 30 else 0)
  + (if (analyzeSentimentTrend ms).currentAvg < -(3:ℚ)/10 then 25 else 0)
  + (if (analyzeParticipationTrend ms).currentAvg < (1:ℚ)/2 then 20 else 0)
  + (if (analyzeParticipationTrend ms).trend = "declining" then 15 else 0)

/-- Risk level from a score: ≥50 high, ≥30 medium, >0 low, else none. -/
def riskLevelOf (score : ℕ) : String :=
  if 50 ≤ score then "high"
  else if 30 ≤ score then "medium"
  else if 0 < score then "low"
  else "none"

/-- `RiskDetector.detect_conflict_risk` (level and score; fewer than three
meetings yield the unknown result). -/
def detectConflictRisk (ms : List MeetingRec) : RiskResult :=
  if ms.length < 3 then ⟨"unknown", 0⟩
  else ⟨riskLevelOf (conflictRiskScore ms), conflictRiskScore ms⟩

/-- The end-to-end scenario of claim C5: four meetings whose sentiment
declines by exactly 20% to a recent average of −0.4 and whose participation
balance declines from 0.6 to 0.3. -/
def c5Input : List MeetingRec :=
  [⟨"2024-01-01", some (-667/2000), some (3/5), 10, []⟩,
   ⟨"2024-01-08", some (-667/2000), some (3/5), 10, []⟩,
   ⟨"2024-01-15", some (-2/5), some (3/10), 10, []⟩,
   ⟨"2024-01-22", some (-2/5), some (3/10), 10, []⟩]

/-- Python whitespace recognised by `str.strip()` (ASCII subset). -/
def isPySpace (c : Char) : Bool :=
  c = ' ' || c = '\t' || c = '\n' || c = '\r' || c = '\x0b' || c = '\x0c'

/-- Python `str.strip()` on a character list. -/
def pyStrip (cs : List Char) : List Char :=
  ((cs.dropWhile isPySpace).reverse.dropWhile isPySpace).reverse

/-- Python `str.split('\n')`: split at every newline (n newlines give n+1
parts, empty parts kept). -/
def splitNl : List Char → List (List Char)
  | [] => [[]]
  | c :: rest =>
    if c = '\n' then [] :: splitNl rest
    else
      match splitNl rest with
      | [] => [[c]]
      | l :: ls => (c :: l) :: ls

/-- Python regex `\w` on ASCII: letters, digits or underscore. -/
def isWordChar (c : Char) : Bool := c.isAlphanum || c = '_'

/-- An utterance produced by `TranscriptParser` (speaker, content, optional
timestamp, 1-based sequence number). -/
structure ParsedMsg where
  speaker : List Char
  content : List Char
  timestamp : Option (List Char)
  sequence : ℕ
deriving DecidableEq

/-- One line of `_parse_colon_format`: the regex
`^([^:]+):\s*(.+)$` (group 1 = text before the first colon, nonempty;
group 2 = rest after the colon, which must contain at least one character)
followed by `speaker.strip()` / `content.strip()` and the
`if speaker and content` check. Stripping group 2 equals stripping the whole
suffix after the colon, and the backtracking case in which `\s*` swallows an
all-whitespace suffix except its last character strips to the same empty
content, so the suffix is stripped directly. -/
def parseColonLine (l : List Char) : Option (List Char × List Char) :=
  let before := l.takeWhile (fun c => c != ':')
  if before.length = 0 then none
  else
    match l.drop before.length with
    | [] => none
    | _ :: after =>
      let speaker := pyStrip before
      let content := pyStrip after
      if speaker.isEmpty || content.isEmpty then none
      else some (speaker, content)

/-- The loop of `_parse_colon_format`: strip each line, skip empty lines and
lines the regex/checks reject, and give accepted lines increasing sequence
numbers starting after `seq`. -/
def parseColonAux : ℕ → List (List Char) → List ParsedMsg
  | _, [] => []
  | seq, line :: rest =>
    if (pyStrip line).isEmpty then parseColonAux seq rest
    else
      match parseColonLine (pyStrip line) with
      | none => parseColonAux seq rest
      | some (s, c) => ⟨s, c, none, seq + 1⟩ :: parseColonAux (seq + 1) rest

/-- `TranscriptParser._parse_colon_format`. -/
def parseColonFormat (lines : List (List Char)) : List ParsedMsg :=
  parseColonAux 0 lines

/-- Consume exactly `k` digits, returning them and the remainder. -/
def takeDigitsAcc : ℕ → List Char → Option (List Char × List Char)
  | 0, cs => some ([], cs)
  | _ + 1, [] => none
  | k + 1, c :: cs =>
    if c.isDigit then
      match takeDigitsAcc k cs with
      | some (ds, rest) => some (c :: ds, rest)
      | none => none
    else none

/-- `\d{k}:\d{2}` at the head of the input. -/
def matchHM (k : ℕ) (cs : List Char) : Option (List Char × List Char) :=
  match takeDigitsAcc k cs with
  | some (ds, c :: rest) =>
    if c = ':' then
      match takeDigitsAcc 2 rest with
      | some (ds2, rest2) => some (ds ++ ':' :: ds2, rest2)
      | none => none
    else none
  | _ => none

/-- `\d{1,2}:\d{2}` at the head of the input: the greedy two-digit
alternative first, then one digit (at most one can match, since a second
digit excludes the colon needed by the one-digit form). -/
def matchTime (cs : List Char) : Option (List Char × List Char) :=
  match matchHM 2 cs with
  | some r => some r
  | none => matchHM 1 cs

/-- Optional `(?::\d{2})?` seconds group; consuming it when present is
forced, since the following `\]?\s+` can never match the leading colon. -/
def matchOptSeconds (t : List Char) (cs : List Char) : List Char × List Char :=
  match cs with
  | ':' :: rest =>
    match takeDigitsAcc 2 rest with
    | some (ds, rest2) => (t ++ ':' :: ds, rest2)
    | none => (t, cs)
  | _ => (t, cs)

/-- One line of `_parse_timestamp_format`: the regex
`\[?(\d{1,2}:\d{2}(?::\d{2})?)\]?\s+([^:]+):\s*(.+)$` under `re.match`,
followed by the strip/non-emptiness checks. The whitespace of `\s+` and the
speaker of `([^:]+)` cannot trade characters in a way that changes the
outcome: whitespace is never a colon, and a speaker consisting only of
whitespace is rejected by `if speaker` either way. -/
def parseTimestampLine (l : List Char) :
    Option (List Char × List Char × List Char) :=
  let l1 := match l with
    | '[' :: rest => rest
    | _ => l
  match matchTime l1 with
  | none => none
  | some (t, rest) =>
    let tr := matchOptSeconds t rest
    let rest3 := match tr.2 with
      | ']' :: r => r
      | _ => tr.2
    let ws := rest3.takeWhile isPySpace
    if ws.isEmpty then none
    else
      let rest4 := rest3.drop ws.length
      let before := rest4.takeWhile (fun c => c != ':')
      if before.length = 0 then none
      else
        match rest4.drop before.length with
        | [] => none
        | _ :: after =>
          let speaker := pyStrip before
          let content := pyStrip after
          if speaker.isEmpty || content.isEmpty then none
          else some (tr.1, speaker, content)

/-- The loop of `_parse_timestamp_format`. -/
def parseTimestampAux : ℕ → List (List Char) → List ParsedMsg
  | _, [] => []
  | seq, line :: rest =>
    if (pyStrip line).isEmpty then parseTimestampAux seq rest
    else
      match parseTimestampLine (pyStrip line) with
      | none => parseTimestampAux seq rest
      | some (t, s, c) => ⟨s, c, some t, seq + 1⟩ :: parseTimestampAux (seq + 1) rest

/-- `TranscriptParser._parse_timestamp_format`. -/
def parseTimestampFormat (lines : List (List Char)) : List ParsedMsg :=
  parseTimestampAux 0 lines

/-- `re.search(r'\[?\d{1,2}:\d{2}\]?\s+\w+:', line)` tried at one start
position (no seconds group here; `\s+` and `\w+` are forced to be the
maximal whitespace and word runs since neither can absorb the other's
characters or the final colon). -/
def tsMatchAt (cs : List Char) : Bool :=
  let l1 := match cs with
    | '[' :: rest => rest
    | _ => cs
  match matchTime l1 with
  | none => false
  | some (_, rest) =>
    let rest2 := match rest with
      | ']' :: r => r
      | _ => rest
    let ws := rest2.takeWhile isPySpace
    if ws.isEmpty then false
    else
      let rest3 := rest2.drop ws.length
      let w := rest3.takeWhile isWordChar
      if w.isEmpty then false
      else
        match rest3.drop w.length with
        | ':' :: _ => true
        | _ => false

/-- `re.search` of the timestamp pattern: a match at any start position. -/
def searchTimestampPat (l : List Char) : Bool := l.tails.any tsMatchAt

/-- `re.search(r'^\w+.*?:\s+', line)`: anchored by `^`, this matches iff the
first character is a word character and some colon at a later position is
immediately followed by a whitespace character (`.*?` ranges over the
intervening characters). -/
def searchColonPat (l : List Char) : Bool :=
  match l with
  | c :: rest =>
    isWordChar c &&
      rest.tails.any (fun t => match t with
        | ':' :: d :: _ => isPySpace d
        | _ => false)
  | [] => false

/-- `TranscriptParser._detect_format`: sample the non-empty lines among the
first 10 lines; timestamp wins on a strict majority of timestamp matches,
else a strict majority of colon matches gives colon, else colon by default.
Python's `count > len(sample)/2` compares an integer with an exact binary
float, which is precisely the integer test `2*count > len(sample)`. -/
def detectFormat (lines : List (List Char)) : String :=
  let sample := (lines.take 10).filter (fun l => !(pyStrip l).isEmpty)
  if 2 * sample.countP searchTimestampPat > sample.length then "timestamp"
  else if 2 * sample.countP searchColonPat > sample.length then "colon"
  else "colon"

/-- `TranscriptParser.parse`: strip the transcript, split into lines, detect
the format and dispatch (the fallback branch is colon as well). -/
def parse (t : List Char) : List ParsedMsg :=
  if detectFormat (splitNl (pyStrip t)) = "colon" then
    parseColonFormat (splitNl (pyStrip t))
  else if detectFormat (splitNl (pyStrip t)) = "timestamp" then
    parseTimestampFormat (splitNl (pyStrip t))
  else parseColonFormat (splitNl (pyStrip t))

/-- Modelled from claim C4's words: a line is well-formed `Name: content`
when, after stripping, it has a first colon with non-empty speaker text
before it and non-empty content after it. -/
def wellFormedLine (line : List Char) : Bool :=
  let l := pyStrip line
  let before := l.takeWhile (fun c => c != ':')
  match l.drop before.length with
  | _ :: after => !(pyStrip before).isEmpty && !(pyStrip after).isEmpty
  | [] => false

/-- Modelled from the spec's words for claim C8: sampling the first 10
non-empty lines of the whole transcript (rather than the non-empty lines
among the first 10 lines). -/
def specDetectFormat (lines : List (List Char)) : String :=
  let sample := (lines.filter (fun l => !(pyStrip l).isEmpty)).take 10
  if 2 * sample.countP searchTimestampPat > sample.length then "timestamp"
  else if 2 * sample.countP searchColonPat > sample.length then "colon"
  else "colon"

/-- A transcript whose single line is well-formed `Name: content` but whose
content embeds a time-like fragment, pushing format detection to timestamp
mode. -/
def c4Input : List Char := ("Alice: at 3:45 Bob: yes").toList

/-- A transcript whose first 10 raw lines are one timestamp line and nine
empty lines, followed by nine colon lines: the code samples only the
timestamp line, while the spec's sampling would see ten non-empty lines. -/
def c8Input : List Char :=
  ("[1:00] Al: hi\n\n\n\n\n\n\n\n\n\nBob: hi\nBob: hi\nBob: hi\nBob: hi\nBob: hi\nBob: hi\nBob: hi\nBob: hi\nBob: hi").toList

/-- Replace a possibly-absent sentiment aggregate by the value the code
substitutes for it (`avg_sentiment or 0.0`). -/
def substSent (m : MeetingRec) : MeetingRec :=
  { m with avgSentiment := some (m.avgSentiment.getD 0) }

/-- Replace a possibly-absent participation balance by the substituted value. -/
def substBal (m : MeetingRec) : MeetingRec :=
  { m with participationBalance := some (m.participationBalance.getD 0) }

/-- Concrete two-meeting history with a negative earlier-window sentiment
mean, used to separate the code's denominator from the one in claim C2. -/
def c2Input : List MeetingRec :=
  [⟨"2024-01-01", some (-1), none, 0, []⟩,
   ⟨"2024-01-02", some 0, none, 0, []⟩]

lemma roundHalfEven_nonneg {x : ℚ} (h : 0 ≤ x) : 0 ≤ roundHalfEven x := by
  have hf : 0 ≤ ⌊x⌋ := Int.floor_nonneg.mpr h
  unfold roundHalfEven
  split_ifs <;> omega

lemma roundHalfEven_le {x : ℚ} {B : ℤ} (h : x ≤ (B : ℚ)) :
    roundHalfEven x ≤ B := by
  have hfB : ⌊x⌋ ≤ B := by
    have := Int.floor_le_floor h
    simpa using this
  have hsucc : (1:ℚ)/2 ≤ x - ⌊x⌋ → ⌊x⌋ + 1 ≤ B := by
    intro hx
    rcases lt_or_eq_of_le hfB with hlt | heq
    · omega
    · exfalso
      have : ((⌊x⌋ : ℤ) : ℚ) ≤ x - 1/2 := by linarith
      rw [heq] at this
      linarith
  unfold roundHalfEven
  split_ifs with h1 h2 h3
  · exact hfB
  · exact hsucc (by linarith)
  · exact hfB
  · exact hsucc (by linarith)

lemma roundTo_nonneg {d : ℕ} {x : ℚ} (h : 0 ≤ x) : 0 ≤ roundTo d x := by
  rw [roundTo]
  apply div_nonneg _ (by positivity)
  have := roundHalfEven_nonneg (x := x * 10 ^ d) (by positivity)
  exact_mod_cast this

lemma roundTo_le {d : ℕ} {x : ℚ} {B : ℤ} (h : x ≤ (B : ℚ)) :
    roundTo d x ≤ (B : ℚ) := by
  rw [roundTo, div_le_iff₀ (by positivity : (0:ℚ) < 10 ^ d)]
  have hb : x * 10 ^ d ≤ ((B * 10 ^ d : ℤ) : ℚ) := by
    push_cast
    have h10 : (0:ℚ) ≤ 10 ^ d := by positivity
    nlinarith
  have := roundHalfEven_le hb
  calc ((roundHalfEven (x * 10 ^ d) : ℤ) : ℚ)
      ≤ ((B * 10 ^ d : ℤ) : ℚ) := by exact_mod_cast this
    _ = (B : ℚ) * 10 ^ d := by push_cast; ring

lemma giniCumsumAux_eq_sum (n : ℕ) (ps : List ℚ) :
    ∀ i, giniCumsumAux n i ps
      = ∑ j ∈ Finset.range ps.length, ((n : ℚ) - ((i + j : ℕ) : ℚ)) * ps.getD j 0 := by
  induction ps with
  | nil =>
      intro i
      simp [giniCumsumAux]
  | cons p rest ih =>
      intro i
      simp only [giniCumsumAux, List.length_cons]
      rw [Finset.sum_range_succ']
      simp only [List.getD_cons_succ, List.getD_cons_zero, Nat.add_zero]
      rw [ih (i + 1)]
      have hb : ∀ j ∈ Finset.range rest.length,
          ((n : ℚ) - ((i + 1 + j : ℕ) : ℚ)) * rest.getD j 0
            = ((n : ℚ) - ((i + (j + 1) : ℕ) : ℚ)) * rest.getD j 0 := by
        intro j _
        congr 3
        omega
      rw [Finset.sum_congr rfl hb]
      exact add_comm _ _

lemma giniCumsumAux_replicate (p : ℚ) (n : ℕ) :
    ∀ (k i : ℕ), giniCumsumAux n i (List.replicate k p)
      = p * ((k : ℚ) * ((n : ℚ) - (i : ℚ)) - ((k : ℚ) * ((k : ℚ) - 1)) / 2) := by
  intro k
  induction k with
  | zero =>
      intro i
      simp [giniCumsumAux]
  | succ k ih =>
      intro i
      rw [List.replicate_succ]
      simp only [giniCumsumAux]
      rw [ih (i + 1)]
      push_cast
      ring

lemma sentVals_map_substSent (ms : List MeetingRec) :
    sentVals (ms.map substSent) = sentVals ms := by
  simp [sentVals, List.map_map, Function.comp_def, substSent]

lemma balVals_map_substBal (ms : List MeetingRec) :
    balVals (ms.map substBal) = balVals ms := by
  simp [balVals, List.map_map, Function.comp_def, substBal]

lemma midPoint_map (f : MeetingRec → MeetingRec) (ms : List MeetingRec) :
    midPoint (ms.map f) = midPoint ms := by
  simp [midPoint]

lemma sentEarlierAvg_map_substSent (ms : List MeetingRec) :
    sentEarlierAvg (ms.map substSent) = sentEarlierAvg ms := by
  rw [sentEarlierAvg, sentEarlierAvg, midPoint_map, ← List.map_take,
    sentVals_map_substSent]

lemma sentRecentAvg_map_substSent (ms : List MeetingRec) :
    sentRecentAvg (ms.map substSent) = sentRecentAvg ms := by
  rw [sentRecentAvg, sentRecentAvg, midPoint_map, ← List.map_drop,
    sentVals_map_substSent]

lemma balEarlierAvg_map_substBal (ms : List MeetingRec) :
    balEarlierAvg (ms.map substBal) = balEarlierAvg ms := by
  rw [balEarlierAvg, balEarlierAvg, midPoint_map, ← List.map_take,
    balVals_map_substBal]

lemma balRecentAvg_map_substBal (ms : List MeetingRec) :
    balRecentAvg (ms.map substBal) = balRecentAvg ms := by
  rw [balRecentAvg, balRecentAvg, midPoint_map, ← List.map_drop,
    balVals_map_substBal]

/-- C6: sentiment-trend classification over at least two meetings is the step
function of the unrounded change percentage with exclusive boundaries:
strictly above +10 is improving, strictly below −10 is declining, the closed
interval [−10, +10] (in particular exactly +10) is stable. -/
theorem sentiment_trend_classification (ms : List MeetingRec)
    (h : 2 ≤ ms.length) :
    ((analyzeSentimentTrend ms).trend = "improving" ↔ 10 < sentChangePct ms) ∧
    ((analyzeSentimentTrend ms).trend = "declining" ↔ sentChangePct ms < -10) ∧
    ((analyzeSentimentTrend ms).trend = "stable" ↔
      -10 ≤ sentChangePct ms ∧ sentChangePct ms ≤ 10) ∧
    (sentChangePct ms = 10 → (analyzeSentimentTrend ms).trend = "stable") := by
  have hlen : ¬ ms.length < 2 := by omega
  simp only [analyzeSentimentTrend, if_neg hlen]
  split_ifs with h1 h2 <;>
    refine ⟨?_, ?_, ?_, ?_⟩ <;> simp_all <;> linarith

/-- Witness for `sentiment_trend_classification` at a concrete two-meeting
history whose change percentage exceeds +10. -/
theorem sentiment_trend_classification_witness :
    (analyzeSentimentTrend
      [⟨"2024-01-01", some 1, none, 0, []⟩,
       ⟨"2024-01-02", some 2, none, 0, []⟩]).trend = "improving" :=
  (sentiment_trend_classification
      [⟨"2024-01-01", some 1, none, 0, []⟩,
       ⟨"2024-01-02", some 2, none, 0, []⟩] (by norm_num)).1.mpr
    (by norm_num [sentChangePct, sentEarlierAvg, sentRecentAvg, sentVals,
      midPoint, listMean, abs])

/-- C2 counterexample: with earlier-window mean −1 and recent-window mean 0,
the code's sentiment change percentage (denominator `abs(earlier + 0.001)`,
value 100.1 after rounding) differs from the claim's formula (denominator
`abs(earlier) + 0.001`, value 99.9 after rounding), both rounded and raw. -/
theorem change_pct_denominator_counterexample :
    (analyzeSentimentTrend c2Input).changePercentage
        ≠ roundTo 2 (specChangePct (sentRecentAvg c2Input) (sentEarlierAvg c2Input)) ∧
    sentChangePct c2Input
        ≠ specChangePct (sentRecentAvg c2Input) (sentEarlierAvg c2Input) := by
  constructor <;>
    norm_num [analyzeSentimentTrend, sentChangePct, specChangePct,
      sentEarlierAvg, sentRecentAvg, sentVals, midPoint, listMean, c2Input,
      roundTo, roundHalfEven, abs]

/-- C2 amended: every trend analysis splits at `mid = len // 2` and scales by
100, but the sentiment denominator is `abs(earlier_avg + 0.001)` while the
participation, engagement and message-volume denominators are
`earlier_avg + 0.001` with no absolute value; the claim's denominator
`abs(earlier_avg) + 0.001` is only obtained when the earlier-window mean is
nonnegative. -/
theorem change_pct_formulas (ms : List MeetingRec) (h : 2 ≤ ms.length) :
    (analyzeSentimentTrend ms).changePercentage
        = roundTo 2 (((sentRecentAvg ms - sentEarlierAvg ms) /
            |sentEarlierAvg ms + 1/1000|) * 100) ∧
    (analyzeParticipationTrend ms).changePercentage
        = roundTo 2 (((balRecentAvg ms - balEarlierAvg ms) /
            (balEarlierAvg ms + 1/1000)) * 100) ∧
    (analyzeEngagementTrend ms).changePercentage
        = roundTo 2 (((engRecentAvg ms - engEarlierAvg ms) /
            (engEarlierAvg ms + 1/1000)) * 100) ∧
    (analyzeMessageVolumeTrend ms).changePercentage
        = roundTo 2 (((volRecentAvg ms - volEarlierAvg ms) /
            (volEarlierAvg ms + 1/1000)) * 100) ∧
    (0 ≤ sentEarlierAvg ms →
      (analyzeSentimentTrend ms).changePercentage
        = roundTo 2 (specChangePct (sentRecentAvg ms) (sentEarlierAvg ms))) ∧
    (0 ≤ balEarlierAvg ms →
      (analyzeParticipationTrend ms).changePercentage
        = roundTo 2 (specChangePct (balRecentAvg ms) (balEarlierAvg ms))) ∧
    (0 ≤ engEarlierAvg ms →
      (analyzeEngagementTrend ms).changePercentage
        = roundTo 2 (specChangePct (engRecentAvg ms) (engEarlierAvg ms))) ∧
    (0 ≤ volEarlierAvg ms →
      (analyzeMessageVolumeTrend ms).changePercentage
        = roundTo 2 (specChangePct (volRecentAvg ms) (volEarlierAvg ms))) := by
  have hlen : ¬ ms.length < 2 := by omega
  simp only [analyzeSentimentTrend, analyzeParticipationTrend,
    analyzeEngagementTrend, analyzeMessageVolumeTrend, if_neg hlen]
  refine ⟨rfl, rfl, rfl, rfl, ?_, ?_, ?_, ?_⟩ <;> intro he
  · rw [sentChangePct, specChangePct, abs_of_nonneg he,
      abs_of_nonneg (by linarith : (0:ℚ) ≤ sentEarlierAvg ms + 1/1000)]
  · rw [balChangePct, specChangePct, abs_of_nonneg he]
  · rw [engChangePct, specChangePct, abs_of_nonneg he]
  · rw [volChangePct, specChangePct, abs_of_nonneg he]

/-- Witness for `change_pct_formulas` at a concrete history with nonnegative
earlier-window means. -/
theorem change_pct_formulas_witness :
    (analyzeSentimentTrend
      [⟨"2024-01-01", some 1, none, 0, []⟩,
       ⟨"2024-01-02", some 3, none, 0, []⟩]).changePercentage
      = roundTo 2 (specChangePct
          (sentRecentAvg [⟨"2024-01-01", some 1, none, 0, []⟩,
            ⟨"2024-01-02", some 3, none, 0, []⟩])
          (sentEarlierAvg [⟨"2024-01-01", some 1, none, 0, []⟩,
            ⟨"2024-01-02", some 3, none, 0, []⟩])) :=
  (change_pct_formulas
      [⟨"2024-01-01", some 1, none, 0, []⟩,
       ⟨"2024-01-02", some 3, none, 0, []⟩] (by norm_num)).2.2.2.2.1
    (by norm_num [sentEarlierAvg, sentVals, midPoint, listMean])

/-- C10: a meeting whose `avg_sentiment` (resp. `participation_balance`)
aggregate is absent is treated by the trend analyzer exactly as if the value
were 0.0 — replacing every absent aggregate by a stored 0.0 leaves the whole
analysis result unchanged — and such meetings stay in the data-point series
(one point per meeting) rather than being excluded. -/
theorem absent_aggregates_treated_as_zero (ms : List MeetingRec) :
    analyzeSentimentTrend (ms.map substSent) = analyzeSentimentTrend ms ∧
    analyzeParticipationTrend (ms.map substBal) = analyzeParticipationTrend ms ∧
    (2 ≤ ms.length →
      (analyzeSentimentTrend ms).dataPoints
          = ms.map (fun m => (m.date, m.avgSentiment.getD 0)) ∧
      (analyzeParticipationTrend ms).dataPoints
          = ms.map (fun m => (m.date, m.participationBalance.getD 0))) := by
  have hdp1 : (ms.map substSent).map (fun m => (m.date, m.avgSentiment.getD 0))
      = ms.map (fun m => (m.date, m.avgSentiment.getD 0)) := by
    simp [List.map_map, Function.comp_def, substSent]
  have hdp2 : (ms.map substBal).map
        (fun m => (m.date, m.participationBalance.getD 0))
      = ms.map (fun m => (m.date, m.participationBalance.getD 0)) := by
    simp [List.map_map, Function.comp_def, substBal]
  have hc1 : sentChangePct (ms.map substSent) = sentChangePct ms := by
    rw [sentChangePct, sentChangePct, sentEarlierAvg_map_substSent,
      sentRecentAvg_map_substSent]
  have hc2 : balChangePct (ms.map substBal) = balChangePct ms := by
    rw [balChangePct, balChangePct, balEarlierAvg_map_substBal,
      balRecentAvg_map_substBal]
  refine ⟨?_, ?_, ?_⟩
  · simp only [analyzeSentimentTrend, List.length_map, hc1,
      sentEarlierAvg_map_substSent, sentRecentAvg_map_substSent, hdp1]
  · simp only [analyzeParticipationTrend, List.length_map, hc2,
      balEarlierAvg_map_substBal, balRecentAvg_map_substBal, hdp2]
  · intro h2
    have hlen : ¬ ms.length < 2 := by omega
    simp [analyzeSentimentTrend, analyzeParticipationTrend, if_neg hlen]

/-- Witness for `absent_aggregates_treated_as_zero` at a history containing an
absent sentiment aggregate. -/
theorem absent_aggregates_witness :
    (analyzeSentimentTrend
      [⟨"2024-01-01", none, none, 0, []⟩,
       ⟨"2024-01-02", some 1, none, 0, []⟩]).dataPoints
      = [("2024-01-01", 0), ("2024-01-02", 1)] := by
  have h := (absent_aggregates_treated_as_zero
      [⟨"2024-01-01", none, none, 0, []⟩,
       ⟨"2024-01-02", some 1, none, 0, []⟩]).2.2 (by norm_num)
  rw [h.1]
  rfl

/-- C1: participation balance is 1.0 for at most one metric row; it is 1.0
whenever all n ≥ 2 speakers have identical positive percentages; it always
lies in [0, 1]; and for n ≥ 2 it equals the clamped `1 - gini` with
`gini = 2*cumsum/(n*sum(p)) - (n+1)/n` over the ascending-sorted
percentages, `cumsum = Σ (n-i)*p_i`. -/
theorem participation_balance_properties (metrics : List ℚ) :
    (metrics.length ≤ 1 → participationBalance metrics = 1) ∧
    (∀ (n : ℕ) (p : ℚ), 2 ≤ n → 0 < p →
      participationBalance (List.replicate n p) = 1) ∧
    (0 ≤ participationBalance metrics ∧ participationBalance metrics ≤ 1) ∧
    (2 ≤ metrics.length →
      participationBalance metrics
        = max 0 (min 1 (1 -
            (2 * giniSpecCumsum (metrics.insertionSort (· ≤ ·)) /
                ((metrics.length : ℚ) * (metrics.insertionSort (· ≤ ·)).sum)
              - ((metrics.length : ℚ) + 1) / (metrics.length : ℚ))))) := by
  refine ⟨?_, ?_, ?_, ?_⟩
  · intro h
    rw [participationBalance, if_pos h]
  · intro n p h2 hp
    have hlen : ¬ (List.replicate n p).length ≤ 1 := by
      simp only [List.length_replicate]
      omega
    have hsort : (List.replicate n p).insertionSort (· ≤ ·) = List.replicate n p :=
      List.Sorted.insertionSort_eq (List.pairwise_replicate.mpr (Or.inr le_rfl))
    rw [participationBalance, if_neg hlen, hsort, List.length_replicate,
      giniCumsumAux_replicate p n n 0, List.sum_replicate, nsmul_eq_mul]
    have hn : (0:ℚ) < (n : ℚ) := by
      have hn0 : 0 < n := by omega
      exact_mod_cast hn0
    have hz : 2 * (p * ((n : ℚ) * ((n : ℚ) - (0:ℕ)) - ((n : ℚ) * ((n : ℚ) - 1)) / 2)) /
          ((n : ℚ) * ((n : ℚ) * p)) - ((n : ℚ) + 1) / (n : ℚ) = 0 := by
      rw [sub_eq_zero]
      field_simp
      ring
    rw [hz]
    norm_num
  · rw [participationBalance]
    split_ifs
    · norm_num
    · constructor
      · exact le_max_left 0 _
      · exact max_le (by norm_num) (min_le_left 1 _)
  · intro h
    have hlen : ¬ metrics.length ≤ 1 := by omega
    rw [participationBalance, if_neg hlen, giniCumsumAux_eq_sum _ _ 0,
      giniSpecCumsum, List.length_insertionSort]
    simp only [Nat.zero_add]

/-- Witness for `participation_balance_properties`: three speakers at equal
percentages give balance exactly 1. -/
theorem participation_balance_witness :
    participationBalance (List.replicate 3 (100/3 : ℚ)) = 1 :=
  (participation_balance_properties []).2.1 3 (100/3) (by norm_num) (by norm_num)

/-- C3: with nonnegative inputs, the engagement score is the rounded weighted
sum 0.4·min(avg_words/20·100, 100) + 0.3·(min(questions/messages·100, 100), 0
when no messages) + 0.3·min(participation, 100), and it always lies in
[0, 100] regardless of input magnitudes. -/
theorem engagement_score_properties (avg_words questions messages participation : ℚ)
    (h1 : 0 ≤ avg_words) (h2 : 0 ≤ questions) (h3 : 0 ≤ messages)
    (h4 : 0 ≤ participation) :
    engagementScore avg_words questions messages participation
      = roundTo 2 (2/5 * min (avg_words / 20 * 100) 100
          + 3/10 * (if 0 < messages then min (questions / messages * 100) 100 else 0)
          + 3/10 * min participation 100) ∧
    0 ≤ engagementScore avg_words questions messages participation ∧
    engagementScore avg_words questions messages participation ≤ 100 := by
  have hws0 : (0:ℚ) ≤ min (avg_words / 20 * 100) 100 :=
    le_min (mul_nonneg (div_nonneg h1 (by norm_num)) (by norm_num)) (by norm_num)
  have hws1 : min (avg_words / 20 * 100) 100 ≤ 100 := min_le_right _ _
  have hqs0 : (0:ℚ) ≤ (if 0 < messages then min (questions / messages * 100) 100 else 0) := by
    split_ifs
    · exact le_min (mul_nonneg (div_nonneg h2 h3) (by norm_num)) (by norm_num)
    · exact le_refl 0
  have hqs1 : (if 0 < messages then min (questions / messages * 100) 100 else 0) ≤ 100 := by
    split_ifs
    · exact min_le_right _ _
    · norm_num
  have hps0 : (0:ℚ) ≤ min participation 100 := le_min h4 (by norm_num)
  have hps1 : min participation 100 ≤ 100 := min_le_right _ _
  refine ⟨?_, ?_, ?_⟩
  · rw [engagementScore]
    congr 1
    norm_num
    ring_nf
  · rw [engagementScore]
    apply roundTo_nonneg
    nlinarith
  · rw [engagementScore]
    have := roundTo_le (d := 2) (B := 100)
      (x := min (avg_words / 20 * 100) 100 * 0.4
        + (if 0 < messages then min (questions / messages * 100) 100 else 0) * 0.3
        + min participation 100 * 0.3)
      (by push_cast; nlinarith)
    simpa using this

/-- Witness for `engagement_score_properties` at avg_words 20, one question in
two messages, participation 50. -/
theorem engagement_score_witness :
    0 ≤ engagementScore 20 1 2 50 ∧ engagementScore 20 1 2 50 ≤ 100 :=
  ⟨(engagement_score_properties 20 1 2 50 (by norm_num) (by norm_num)
      (by norm_num) (by norm_num)).2.1,
   (engagement_score_properties 20 1 2 50 (by norm_num) (by norm_num)
      (by norm_num) (by norm_num)).2.2⟩

/-- C7: after an analysis pass the stored `total_messages` equals the sum of
the per-speaker metric message counts, and the per-speaker participation
percentages sum to exactly 100 whenever the meeting has at least one
message. -/
theorem speaker_metrics_invariants (msgs : List String) :
    ((meetingSpeakers msgs).map (speakerMessageCount msgs)).sum
        = storedTotalMessages msgs ∧
    (1 ≤ msgs.length →
      ((meetingSpeakers msgs).map (participationPct msgs)).sum = 100) := by
  have hcount : (msgs.dedup.map (fun s => msgs.count s)).sum = msgs.length :=
    List.sum_map_count_dedup_eq_length msgs
  constructor
  · exact hcount
  · intro h
    have hlen : (0:ℚ) < (msgs.length : ℚ) := by
      have h0 : 0 < msgs.length := by omega
      exact_mod_cast h0
    have hstep : (msgs.dedup.map (participationPct msgs))
        = msgs.dedup.map (fun s => (msgs.count s : ℚ) * (100 / (msgs.length : ℚ))) := by
      apply List.map_congr_left
      intro s _
      rw [participationPct, if_pos (by omega)]
      ring
    rw [meetingSpeakers, hstep, List.sum_map_mul_right]
    have hcast : (msgs.dedup.map (fun s => ((msgs.count s : ℕ) : ℚ))).sum
        = ((msgs.length : ℕ) : ℚ) := by
      have hmm : msgs.dedup.map (fun s => ((msgs.count s : ℕ) : ℚ))
          = (msgs.dedup.map (fun s => msgs.count s)).map (fun k : ℕ => (k : ℚ)) := by
        rw [List.map_map]
        rfl
      rw [hmm, ← Nat.cast_list_sum, hcount]
    rw [hcast]
    field_simp

/-- Witness for `speaker_metrics_invariants` on a three-message meeting with
two speakers. -/
theorem speaker_metrics_invariants_witness :
    ((meetingSpeakers ["alice", "bob", "alice"]).map
        (participationPct ["alice", "bob", "alice"])).sum = 100 :=
  (speaker_metrics_invariants ["alice", "bob", "alice"]).2 (by norm_num)

/-- C9: a message is flagged as a question exactly when its content contains
a question mark or its trimmed lowercase form starts with one of the fixed
interrogative/auxiliary words. -/
theorem is_question_iff (content : String) :
    isQuestion content = true ↔
      (content.contains '?' = true ∨
        ∃ q ∈ questionWords, (content.toLower.trim).startsWith q = true) := by
  simp [isQuestion, List.any_eq_true, Bool.or_eq_true]

lemma riskLevelOf_spec (s : ℕ) :
    (riskLevelOf s = "high" ↔ 50 ≤ s) ∧
    (riskLevelOf s = "medium" ↔ 30 ≤ s ∧ s < 50) ∧
    (riskLevelOf s = "low" ↔ 0 < s ∧ s < 30) ∧
    (riskLevelOf s = "none" ↔ s = 0) := by
  unfold riskLevelOf
  split_ifs with h1 h2 h3 <;> refine ⟨?_, ?_, ?_, ?_⟩ <;> simp_all <;> omega

/-- C5: over at least three meetings the conflict risk score is the sum of
the four indicator contributions (+30 sentiment declining beyond −15%, +25
recent sentiment below −0.3, +20 recent balance below 0.5, +15 declining
participation trend), the level is the step function of the score (≥50 high,
30–49 medium, 1–29 low, 0 none), and the claim's concrete scenario
(sentiment declining −20% to −0.4, balance 0.3, declining participation)
scores 90 with level high. -/
theorem conflict_risk_properties (ms : List MeetingRec) (h : 3 ≤ ms.length) :
    (detectConflictRisk ms).riskScore = conflictRiskScore ms ∧
    ((detectConflictRisk ms).riskLevel = "high" ↔
      50 ≤ conflictRiskScore ms) ∧
    ((detectConflictRisk ms).riskLevel = "medium" ↔
      30 ≤ conflictRiskScore ms ∧ conflictRiskScore ms < 50) ∧
    ((detectConflictRisk ms).riskLevel = "low" ↔
      0 < conflictRiskScore ms ∧ conflictRiskScore ms < 30) ∧
    ((detectConflictRisk ms).riskLevel = "none" ↔ conflictRiskScore ms = 0) ∧
    (detectConflictRisk c5Input).riskScore = 90 ∧
    (detectConflictRisk c5Input).riskLevel = "high" := by
  have hlen : ¬ ms.length < 3 := by omega
  have hscen : conflictRiskScore c5Input = 90 := by
    have hst : analyzeSentimentTrend c5Input =
        ⟨"declining", -20, -2/5, -667/2000,
          [("2024-01-01", -667/2000), ("2024-01-08", -667/2000),
           ("2024-01-15", -2/5), ("2024-01-22", -2/5)]⟩ := by
      norm_num [analyzeSentimentTrend, sentChangePct, sentEarlierAvg,
        sentRecentAvg, sentVals, midPoint, listMean, c5Input, roundTo,
        roundHalfEven, abs]
    have hpt : analyzeParticipationTrend c5Input =
        ⟨"declining", roundTo 2 (balChangePct c5Input), 3/10, 3/5,
          [("2024-01-01", 3/5), ("2024-01-08", 3/5),
           ("2024-01-15", 3/10), ("2024-01-22", 3/10)]⟩ := by
      norm_num [analyzeParticipationTrend, balChangePct, balEarlierAvg,
        balRecentAvg, balVals, midPoint, listMean, c5Input, roundTo,
        roundHalfEven]
    rw [conflictRiskScore, hst, hpt]
    norm_num
  refine ⟨?_, ?_, ?_, ?_, ?_, ?_, ?_⟩
  · rw [detectConflictRisk, if_neg hlen]
  · rw [detectConflictRisk, if_neg hlen]
    exact (riskLevelOf_spec (conflictRiskScore ms)).1
  · rw [detectConflictRisk, if_neg hlen]
    exact (riskLevelOf_spec (conflictRiskScore ms)).2.1
  · rw [detectConflictRisk, if_neg hlen]
    exact (riskLevelOf_spec (conflictRiskScore ms)).2.2.1
  · rw [detectConflictRisk, if_neg hlen]
    exact (riskLevelOf_spec (conflictRiskScore ms)).2.2.2
  · rw [detectConflictRisk, if_neg (by norm_num [c5Input])]
    exact hscen
  · rw [detectConflictRisk, if_neg (by norm_num [c5Input])]
    rw [hscen]
    rfl

/-- Witness for `conflict_risk_properties` at the concrete scenario input. -/
theorem conflict_risk_witness :
    (detectConflictRisk c5Input).riskScore = 90 ∧
    (detectConflictRisk c5Input).riskLevel = "high" :=
  ⟨(conflict_risk_properties c5Input (by norm_num [c5Input])).2.2.2.2.2.1,
   (conflict_risk_properties c5Input (by norm_num [c5Input])).2.2.2.2.2.2⟩

lemma parseColonAux_sequences (lines : List (List Char)) : ∀ seq : ℕ,
    (parseColonAux seq lines).map (fun m => m.sequence)
      = List.range' (seq + 1) (parseColonAux seq lines).length := by
  induction lines with
  | nil =>
      intro seq
      simp [parseColonAux]
  | cons line rest ih =>
      intro seq
      simp only [parseColonAux]
      by_cases h1 : (pyStrip line).isEmpty
      · rw [if_pos h1]
        exact ih seq
      · rw [if_neg h1]
        rcases hpl : parseColonLine (pyStrip line) with _ | ⟨s, c⟩
        · exact ih seq
        · simp only [List.map_cons, List.length_cons]
          rw [ih (seq + 1), List.range'_succ]

lemma parseColonAux_length (lines : List (List Char)) : ∀ seq : ℕ,
    (parseColonAux seq lines).length
      = lines.countP
          (fun l => !(pyStrip l).isEmpty && (parseColonLine (pyStrip l)).isSome) := by
  induction lines with
  | nil =>
      intro seq
      simp [parseColonAux]
  | cons line rest ih =>
      intro seq
      simp only [parseColonAux, List.countP_cons]
      by_cases h1 : (pyStrip line).isEmpty
      · rw [if_pos h1]
        simp [h1, ih seq]
      · rw [if_neg h1]
        rcases hpl : parseColonLine (pyStrip line) with _ | ⟨s, c⟩
        · simp [h1, hpl, ih seq]
        · simp [h1, hpl, ih (seq + 1)]

lemma parseColonAux_skip (bad : List Char)
    (hbad : (pyStrip bad).isEmpty = true ∨ parseColonLine (pyStrip bad) = none) :
    ∀ (pre post : List (List Char)) (seq : ℕ),
      parseColonAux seq (pre ++ bad :: post) = parseColonAux seq (pre ++ post) := by
  intro pre
  induction pre with
  | nil =>
      intro post seq
      simp only [List.nil_append, parseColonAux]
      rcases hbad with h | h
      · rw [if_pos h]
      · by_cases h1 : (pyStrip bad).isEmpty
        · rw [if_pos h1]
        · rw [if_neg h1, h]
  | cons line rest ih =>
      intro post seq
      simp only [List.cons_append, parseColonAux]
      by_cases h1 : (pyStrip line).isEmpty
      · rw [if_pos h1, if_pos h1]
        exact ih post seq
      · rw [if_neg h1, if_neg h1]
        rcases hpl : parseColonLine (pyStrip line) with _ | ⟨s, c⟩
        · simp only [hpl]
          exact ih post seq
        · simp only [hpl]
          exact congrArg _ (ih post (seq + 1))

lemma wellFormed_accepted (line : List Char) (h : wellFormedLine line = true) :
    (pyStrip line).isEmpty = false ∧ (parseColonLine (pyStrip line)).isSome = true := by
  simp only [wellFormedLine] at h
  rcases hd : (pyStrip line).drop
      ((pyStrip line).takeWhile (fun c => c != ':')).length with _ | ⟨a, after⟩
  · rw [hd] at h
    exact absurd h (by simp)
  · rw [hd] at h
    rw [Bool.and_eq_true] at h
    have hsp := h.1
    have hct := h.2
    have hbl : ((pyStrip line).takeWhile (fun c => c != ':')).length ≠ 0 := by
      intro h0
      have : (pyStrip line).takeWhile (fun c => c != ':') = [] :=
        List.eq_nil_of_length_eq_zero h0
      rw [this] at hsp
      simp [pyStrip] at hsp
    have hne : (pyStrip line).isEmpty = false := by
      rcases hnil : pyStrip line with _ | _
      · rw [hnil] at hd
        simp at hd
      · simp
  -- with the pieces in hand, evaluate parseColonLine
    refine ⟨hne, ?_⟩
    simp only [parseColonLine, if_neg hbl, hd]
    have hsp' : (pyStrip ((pyStrip line).takeWhile (fun c => c != ':'))).isEmpty = false := by
      simpa using hsp
    have hct' : (pyStrip after).isEmpty = false := by
      simpa using hct
    simp [hsp', hct']

/-- C4 amended: when format detection chooses colon mode and every non-empty
line of the transcript is well-formed `Name: content`, parse yields exactly
one utterance per non-empty line, numbered 1..k in order; moreover (for any
transcript) colon parsing numbers its accepted lines 1..k and silently drops
any line that is empty or rejected, without advancing the sequence
counter. -/
theorem colon_parse_wellformed (t : List Char)
    (hdet : detectFormat (splitNl (pyStrip t)) = "colon")
    (hwf : ∀ line ∈ splitNl (pyStrip t),
      (pyStrip line).isEmpty = false → wellFormedLine line = true) :
    (parse t).length
        = (splitNl (pyStrip t)).countP (fun l => !(pyStrip l).isEmpty) ∧
    (parse t).map (fun m => m.sequence) = List.range' 1 (parse t).length ∧
    (∀ lines : List (List Char),
      (parseColonFormat lines).map (fun m => m.sequence)
        = List.range' 1 (parseColonFormat lines).length) ∧
    (∀ (bad : List Char) (pre post : List (List Char)),
      (pyStrip bad).isEmpty = true ∨ parseColonLine (pyStrip bad) = none →
      parseColonFormat (pre ++ bad :: post) = parseColonFormat (pre ++ post)) := by
  have hparse : parse t = parseColonFormat (splitNl (pyStrip t)) := by
    rw [parse, if_pos hdet]
  refine ⟨?_, ?_, ?_, ?_⟩
  · rw [hparse, parseColonFormat, parseColonAux_length]
    apply List.countP_congr
    intro l hl
    by_cases he : (pyStrip l).isEmpty
    · simp [he]
    · have hacc := wellFormed_accepted l (hwf l hl (by simpa using he))
      simp [he, hacc.2]
  · rw [hparse, parseColonFormat]
    exact parseColonAux_sequences (splitNl (pyStrip t)) 0
  · intro lines
    rw [parseColonFormat]
    exact parseColonAux_sequences lines 0
  · intro bad pre post hbad
    rw [parseColonFormat, parseColonFormat]
    exact parseColonAux_skip bad hbad pre post 0

/-- Witness for `colon_parse_wellformed` on a two-line colon transcript. -/
theorem colon_parse_witness :
    (parse ("Alice: hello there\nBob: hi").toList).map (fun m => m.sequence)
      = List.range' 1 (parse ("Alice: hello there\nBob: hi").toList).length :=
  (colon_parse_wellformed ("Alice: hello there\nBob: hi").toList
    (by decide) (by decide)).2.1

/-- C4 counterexample: the transcript `Alice: at 3:45 Bob: yes` consists of a
single well-formed non-empty `Name: content` line, yet `parse` returns no
utterances, because the time-like fragment in the content drives format
detection to timestamp mode whose line regex rejects the line. -/
theorem colon_parse_counterexample :
    (∀ line ∈ splitNl (pyStrip c4Input),
      (pyStrip line).isEmpty = false → wellFormedLine line = true) ∧
    (splitNl (pyStrip c4Input)).countP (fun l => !(pyStrip l).isEmpty) = 1 ∧
    parse c4Input = [] :=
  ⟨by decide, by decide, by decide⟩

/-- C8 amended: format detection samples the non-empty lines among the first
10 raw lines (not the first 10 non-empty lines of the transcript); timestamp
mode is chosen iff timestamp matches exceed half that sample, and otherwise
the result is colon mode (the strict-majority colon branch and the default
coincide). -/
theorem format_detection_properties (t : List Char) :
    (detectFormat (splitNl (pyStrip t)) = "timestamp" ↔
      2 * (((splitNl (pyStrip t)).take 10).filter
            (fun l => !(pyStrip l).isEmpty)).countP searchTimestampPat
        > (((splitNl (pyStrip t)).take 10).filter
            (fun l => !(pyStrip l).isEmpty)).length) ∧
    (detectFormat (splitNl (pyStrip t)) = "timestamp" ∨
      detectFormat (splitNl (pyStrip t)) = "colon") := by
  simp only [detectFormat]
  split_ifs with h1 h2 <;> simp_all

/-- C8 counterexample: on `c8Input` the code's sampling (non-empty lines
among the first 10 raw lines) sees only the timestamp line and chooses
timestamp mode, while sampling the first 10 non-empty lines of the whole
transcript, as the claim reads, would choose colon mode. -/
theorem format_detection_counterexample :
    detectFormat (splitNl (pyStrip c8Input)) = "timestamp" ∧
    specDetectFormat (splitNl (pyStrip c8Input)) = "colon" :=
  ⟨by decide, by decide⟩

end TeamPulse
